import Mathlib

/-!
A verification development for the mkmk meta-build tool. The Python sources
are shallowly embedded as executable Lean definitions: dictionaries become
association lists, exceptions become Except, and object methods become
functions on explicit state. Each definition cites the source location it
embeds.
-/

namespace Mkmk

/-! ## Shared helpers: Python dict / string primitives -/

/-- A query context or restriction map: a Python dict from tag to value
(`src/mkmk/extension/c.py`). Embedded as an association list with the usual
dict lookup semantics. -/
abbrev Ctx := List (String × String)

/-- Python dict assignment d[k] = v: the binding for k is replaced, other
bindings are untouched. -/
def alInsert {α : Type} (k : String) (v : α) (l : List (String × α)) :
    List (String × α) :=
  (k, v) :: l.filter (fun p => !(p.1 == k))

/-- Python whitespace class \s as used by the re module on ASCII input:
space, tab, newline, carriage return, vertical tab, form feed. -/
def isPySpace (c : Char) : Bool :=
  c == ' ' || c == '\t' || c == '\n' || c == '\r' || c == '\x0b' || c == '\x0c'

/-- shell_escape from src/mkmk/command.py line 34: every character in the
class [\s()\\] is prefixed with a backslash. -/
def shell_escape (s : String) : String :=
  String.mk (s.toList.foldr
    (fun c acc => if isPySpace c || c == '(' || c == ')' || c == '\\'
      then '\\' :: c :: acc else c :: acc) [])

/-- os.path.basename for the forward-slash paths used throughout: the
characters after the last slash. -/
def basename (s : String) : String :=
  String.mk (s.toList.foldl (fun acc c => if c = '/' then [] else acc ++ [c]) [])

/-- Command from src/mkmk/command.py: a sequence of shell command strings
plus an optional comment. -/
structure Command where
  parts : List String
  comment : Option String
deriving DecidableEq, Repr

/-- Command.set_comment (src/mkmk/command.py line 16). -/
def Command.set_comment (c : Command) (comment : String) : Command :=
  { c with comment := some comment }

/-! ## Setting and Settings (src/mkmk/extension/c.py lines 23-104) -/

/-- A single named setting: a list of (value, restrictions) entries in
insertion order plus the sticky and additive flags
(src/mkmk/extension/c.py lines 23-28). Values of additive settings are
lists of strings, which is the shape the claims exercise. -/
structure Setting where
  values : List (List String × Ctx)
  is_sticky : Bool
  is_additive : Bool
deriving DecidableEq, Repr

/-- Setting.is_active (src/mkmk/extension/c.py lines 45-49): iterate the
restriction's items; return False only when a tag is present in the context
with a different value. -/
def Setting.is_active (restriction : Ctx) (context : Ctx) : Bool :=
  restriction.all fun tv =>
    match context.lookup tv.1 with
    | some v => v == tv.2
    | none => true

/-- The values of the entries whose restriction is active in the given
context, in insertion order (the list comprehension in Setting.get,
src/mkmk/extension/c.py line 35). -/
def Setting.matchValues (s : Setting) (context : Ctx) : List (List String) :=
  (s.values.filter fun vr => Setting.is_active vr.2 context).map Prod.fst

/-- Setting.get (src/mkmk/extension/c.py lines 33-43). The failing assert
on a non-additive setting with several active entries is an Except.error. -/
def Setting.get (s : Setting) (context : Ctx) (defawlt : List String) :
    Except String (List String) :=
  let ms := Setting.matchValues s context
  if ms.isEmpty then .ok defawlt
  else if s.is_additive then .ok (ms.foldl (· ++ ·) [])
  else match ms with
    | [m] => .ok m
    | _ => .error "assert: more than one active entry"

/-- The hierarchical Settings chain (src/mkmk/extension/c.py lines 52-61):
a map name to Setting, an optional parent, and the pervasive flag. -/
inductive Settings : Type where
  | mk (attribs : List (String × Setting)) (parent : Option Settings)
      (is_pervasive : Bool)

/-- Settings.get (src/mkmk/extension/c.py lines 63-73). Delegation to the
parent always passes only_sticky = true. -/
def Settings.get : Settings → String → Ctx → List String → Bool →
    Except String (List String)
  | .mk attribs none _, name, context, defawlt, only_sticky =>
    match attribs.lookup name with
    | none => .ok defawlt
    | some attrib =>
      if only_sticky && !attrib.is_sticky then .ok defawlt
      else Setting.get attrib context defawlt
  | .mk attribs (some p) _, name, context, defawlt, only_sticky =>
    match attribs.lookup name with
    | none => Settings.get p name context defawlt true
    | some attrib =>
      if only_sticky && !attrib.is_sticky then
        Settings.get p name context defawlt true
      else if attrib.is_additive then
        match Setting.get attrib context [] with
        | .error e => .error e
        | .ok l =>
          match Settings.get p name context defawlt true with
          | .error e => .error e
          | .ok r => .ok (l ++ r)
      else Setting.get attrib context defawlt

/-! ## C include scanning (src/mkmk/extension/c.py lines 530-574) -/

/-- The regex _HEADER_PATTERN (src/mkmk/extension/c.py line 531) applied
with re.match, i.e. anchored at the start of the line: a literal hash,
optional whitespace, the word include, at least one whitespace character,
then a double-quoted nonempty name without inner quotes. Returns the
captured group. -/
def matchHeaderAt : List Char → Option String
  | [] => none
  | c :: rest =>
    if c = '#' then
      let rest1 := rest.dropWhile isPySpace
      if rest1.take 7 = "include".toList then
        let rest2 := rest1.drop 7
        match rest2 with
        | [] => none
        | c2 :: _ =>
          if isPySpace c2 then
            match rest2.dropWhile isPySpace with
            | '\"' :: rest3 =>
              let nm := rest3.takeWhile (fun ch => !(ch == '\"'))
              if nm.isEmpty then none
              else match rest3.drop nm.length with
                | '\"' :: _ => some (String.mk nm)
                | _ => none
            | _ => none
          else none
      else none
    else none

/-- CSourceNode.scan_for_include_names (src/mkmk/extension/c.py lines
566-574): run the pattern over each line, accumulate the captured names in
a set, and return the sorted list. -/
def scan_for_include_names (lines : List String) : List String :=
  let collected := lines.filterMap (fun line => matchHeaderAt line.toList)
  List.insertionSort (· ≤ ·) collected.dedup

/-- The include pattern as the spec words it (spec.md section 4.4):
a line matches when it satisfies the whitespace-tolerant regex anchored at
the beginning of the line, so leading whitespace before the hash is
allowed. Used only to compare the spec's wording with the source. -/
def specIncludeMatch (cs : List Char) : Option String :=
  matchHeaderAt (cs.dropWhile isPySpace)

/-! ## System and command builders (src/mkmk/system.py) -/

/-- An environment binding (name, value, mode) as appended by
CustomExecNode.add_env (src/mkmk/node.py lines 218-220). -/
structure EnvBinding where
  name : String
  value : String
  mode : String
deriving DecidableEq, Repr

/-- The state of a CommandBuilder (src/mkmk/system.py lines 45-68). -/
structure CommandBuilder where
  executable : String
  args : List String
  comment : Option String
  tee_dest : Option String
  env : List EnvBinding
deriving DecidableEq, Repr

/-- The env assignment string POSIX builders emit for one binding
(src/mkmk/system.py lines 78-92); an unknown mode raises. -/
def posixEnvString (b : EnvBinding) : Except String String :=
  if b.mode = "append" then .ok (b.name ++ "=$$" ++ b.name ++ ":" ++ b.value)
  else if b.mode = "replace" then .ok (b.name ++ "=" ++ b.value)
  else .error "Unknown mode"

/-- Collect the env strings for all bindings, failing on the first unknown
mode, as the loop in PosixCommandBuilder.build does. -/
def posixEnvStrings : List EnvBinding → Except String (List String)
  | [] => .ok []
  | b :: rest =>
    match posixEnvString b with
    | .error e => .error e
    | .ok s =>
      match posixEnvStrings rest with
      | .error e => .error e
      | .ok ss => .ok (s :: ss)

/-- PosixCommandBuilder.build (src/mkmk/system.py lines 71-109). -/
def PosixCommandBuilder.build (b : CommandBuilder) : Except String Command :=
  let raw0 := b.executable ++ " " ++ String.intercalate " " (b.args.map shell_escape)
  match posixEnvStrings b.env with
  | .error e => .error e
  | .ok envs =>
    let raw := if b.env.length > 0
      then String.intercalate " " envs ++ " " ++ raw0 else raw0
    let result : Command :=
      match b.tee_dest with
      | some outpath =>
        { parts :=
            [ raw ++ " > " ++ outpath ++ " 2>&1 || echo > " ++ outpath ++ ".fail",
              "cat " ++ outpath,
              "if [ -f " ++ outpath ++ ".fail ]; then rm " ++ outpath ++ " "
                ++ outpath ++ ".fail; false; else true; fi" ],
          comment := b.comment }
      | none => { parts := [raw], comment := b.comment }
    .ok result

/-- The operations a System object actually carries. The three command
constructors are present on both PosixSystem and WindowsSystem
(src/mkmk/system.py lines 112-132 and 190-212); the two optional fields
record whether the object has a run_with_environment or a
get_safe_tee_command attribute. No class in src/mkmk/system.py defines
either, so both per-OS instances below carry none. -/
structure SystemImpl where
  os : String
  get_ensure_folder_command : String → Except String Command
  get_clear_folder_command : String → Except String Command
  get_copy_command : String → String → Except String Command
  run_with_environment : Option (String → List EnvBinding → String)
  get_safe_tee_command : Option (String → String → Command)

/-- PosixSystem (src/mkmk/system.py lines 112-132) built from its source:
each method routes through a PosixCommandBuilder; the class body contains
no run_with_environment and no get_safe_tee_command method. -/
def posixSystem : SystemImpl where
  os := "posix"
  get_ensure_folder_command folder :=
    PosixCommandBuilder.build
      { executable := "mkdir", args := ["-p", folder], comment := none,
        tee_dest := none, env := [] }
  get_clear_folder_command folder :=
    PosixCommandBuilder.build
      { executable := "rm", args := ["-rf", folder],
        comment := some ("Clearing '" ++ folder ++ "'"),
        tee_dest := none, env := [] }
  get_copy_command source target :=
    PosixCommandBuilder.build
      { executable := "cp", args := [source, target],
        comment := some ("Copying to '" ++ target ++ "'"),
        tee_dest := none, env := [] }
  run_with_environment := none
  get_safe_tee_command := none

/-- The env assignment string Windows builders emit for one binding
(src/mkmk/system.py lines 153-170). -/
def windowsEnvString (b : EnvBinding) : Except String String :=
  if b.mode = "append" then
    .ok ("set \"" ++ b.name ++ "=%" ++ b.name ++ "%;" ++ b.value ++ "\"")
  else if b.mode = "replace" then
    .ok ("set \"" ++ b.name ++ "=" ++ b.value ++ "\"")
  else .error "Unknown mode"

/-- WindowsSystem (src/mkmk/system.py lines 190-212): like the POSIX one,
its class body defines no run_with_environment and no
get_safe_tee_command. The command constructors are embedded with the
WindowsCommandBuilder rendering of an env-free, tee-free builder. -/
def windowsSystem : SystemImpl where
  os := "windows"
  get_ensure_folder_command folder :=
    .ok { parts := ["if " ++ String.intercalate " "
            (["not", "exist", folder, "mkdir", folder].map shell_escape)],
          comment := none }
  get_clear_folder_command folder :=
    .ok { parts := ["if " ++ String.intercalate " "
            (["exist", folder, "rmdir", "/s", "/q", folder].map shell_escape)],
          comment := some ("Clearing '" ++ folder ++ "'") }
  get_copy_command source target :=
    .ok { parts := ["copy " ++ String.intercalate " "
            ([source, target].map shell_escape)],
          comment := some ("Copying to '" ++ target ++ "'") }
  run_with_environment := none
  get_safe_tee_command := none

/-! ## CustomExecNode (src/mkmk/node.py lines 164-224) -/

/-- The per-instance state of a CustomExecNode that get_command_line
consumes: the runner command line resolved from the runner-annotated
input, the output path, the argument vector, the env bindings, the
optional title and the full name used for the default title. -/
structure ExecNodeData where
  runner : String
  outpath : String
  args : List String
  env : List EnvBinding
  title : Option String
  full_name : String

/-- CustomExecNode.should_tee_output (src/mkmk/node.py lines 200-201). -/
def CustomExecNode.should_tee_output : Bool := false

/-- ExecTestCaseNode.should_tee_output
(src/mkmk/extension/test.py lines 24-25). -/
def ExecTestCaseNode.should_tee_output : Bool := true

/-- CustomExecNode.get_command_line (src/mkmk/node.py lines 176-192).
Looking up a method the system object does not have raises
AttributeError, embedded as an Except.error. The should_tee argument is
the dynamic dispatch of should_tee_output. -/
def CustomExecNode.get_command_line (system : SystemImpl) (n : ExecNodeData)
    (should_tee : Bool) : Except String Command :=
  let raw0 := n.runner ++ " " ++ String.intercalate " " n.args
  let rawE : Except String String :=
    if n.env.length > 0 then
      match system.run_with_environment with
      | none => .error "AttributeError: run_with_environment"
      | some f => .ok (f raw0 n.env)
    else .ok raw0
  match rawE with
  | .error e => .error e
  | .ok raw =>
    let resultE : Except String Command :=
      if should_tee then
        match system.get_safe_tee_command with
        | none => .error "AttributeError: get_safe_tee_command"
        | some f => .ok (f raw n.outpath)
      else .ok { parts := [raw], comment := none }
    match resultE with
    | .error e => .error e
    | .ok result =>
      let title := match n.title with
        | none => "Running " ++ n.full_name
        | some t => t
      .ok (result.set_comment title)

/-! ## Node registry (src/mkmk/makefile.py lines 487-531, Nodespace) -/

/-- Name.parts: a full node name is a tuple of string segments
(src/mkmk/makefile.py lines 80-118). -/
abbrev FullName := List String

/-- Name.get_last_part (src/mkmk/makefile.py lines 98-99). -/
def FullName.lastPart (full : FullName) : String := full.getLastD ""

/-- The value a node constructor builds from the last name part and the
remaining constructor arguments. Which constructor ran and with which
arguments is observable through this payload. -/
structure NodeBody where
  name : String
  payload : List String
deriving DecidableEq, Repr

/-- A registered node: the payload plus an allocation identity, standing
for Python object identity. A fresh id is consumed exactly when a new
object is constructed. -/
structure PyNode where
  id : Nat
  body : NodeBody
deriving DecidableEq, Repr

/-- The mutable state of a Nodespace (src/mkmk/makefile.py lines 487-494
plus the Environment registry it feeds): the per-space node dict, the
global registry, the dep name used as prefix, and the id supply. -/
structure NSState where
  nodes : List (FullName × PyNode)
  env_nodes : List (FullName × PyNode)
  depName : Option String
  next_id : Nat
deriving DecidableEq, Repr

/-- Nodespace.add_node (src/mkmk/makefile.py lines 509-516): store the
node under its full name and under the prefixed global name. -/
def Nodespace.add_node (s : NSState) (full : FullName) (n : PyNode) : NSState :=
  let global := match s.depName with
    | none => full
    | some p => p :: full
  { s with nodes := (full, n) :: s.nodes,
           env_nodes := (global, n) :: s.env_nodes }

/-- Nodespace.get_or_create_node (src/mkmk/makefile.py lines 503-507): an
existing registration is returned untouched; otherwise the constructor is
invoked on the last name part and the node is registered. -/
def Nodespace.get_or_create_node (s : NSState) (full : FullName)
    (Class : String → List String → NodeBody) (args : List String) :
    PyNode × NSState :=
  match s.nodes.lookup full with
  | some n => (n, s)
  | none =>
    let n : PyNode := { id := s.next_id, body := Class (FullName.lastPart full) args }
    (n, Nodespace.add_node { s with next_id := s.next_id + 1 } full n)

/-! ## Persistent file attribute cache (src/mkmk/makefile.py lines
200-216 and 670-697) -/

/-- A JSON value stored in the metadata cache: the mtime entry is an
integer, scanner outputs are lists of strings. -/
inductive MetaVal : Type where
  | int (n : Int)
  | strs (l : List String)
deriving DecidableEq, Repr

/-- One entry of the attribute cache: the dict persisted per path, holding
the mtime key next to the attribute keys. -/
abbrev CacheEntry := List (String × MetaVal)

/-- The persisted attribute cache: path to entry dict. -/
abbrev AttribCache := List (String × CacheEntry)

/-- Environment.peek_file_attribute (src/mkmk/makefile.py lines 671-682):
a persisted value is served only when the stored mtime equals the file's
current modified time in milliseconds. -/
def Environment.peek_file_attribute (cache : AttribCache) (path : String)
    (file_time : Int) (attrib : String) : Option MetaVal :=
  match cache.lookup path with
  | none => none
  | some file_cache =>
    if (file_cache.lookup "mtime").getD (.int 0) = .int file_time
    then file_cache.lookup attrib
    else none

/-- Environment.set_file_attribute (src/mkmk/makefile.py lines 685-697):
on an mtime mismatch the whole entry is reset to a fresh mtime record
before the attribute is stored. -/
def Environment.set_file_attribute (cache : AttribCache) (path : String)
    (file_time : Int) (attrib : String) (value : MetaVal) : AttribCache :=
  let file_cache := (cache.lookup path).getD []
  let file_cache :=
    if (file_cache.lookup "mtime").getD (.int 0) = .int file_time
    then file_cache
    else [("mtime", MetaVal.int file_time)]
  alInsert path (alInsert attrib value file_cache) cache

/-- The result of AbstractFile.get_attribute: the value, whether the
compute thunk ran, and the updated in-memory attribute dict and persisted
cache. -/
structure GetAttrResult where
  value : MetaVal
  computed : Bool
  attribs : List (String × MetaVal)
  cache : AttribCache
deriving DecidableEq, Repr

/-- AbstractFile.get_attribute (src/mkmk/makefile.py lines 200-216). The
thunk is represented by the value it would compute; the computed flag
records whether it was invoked. -/
def AbstractFile.get_attribute (attribs : List (String × MetaVal))
    (cache : AttribCache) (path : String) (file_time : Int) (name : String)
    (thunkResult : MetaVal) (sticky : Bool) : GetAttrResult :=
  match attribs.lookup name with
  | some v => ⟨v, false, attribs, cache⟩
  | none =>
    let fromCache : Option MetaVal :=
      if sticky then Environment.peek_file_attribute cache path file_time name
      else none
    match fromCache with
    | some cached => ⟨cached, false, alInsert name cached attribs, cache⟩
    | none =>
      let value := thunkResult
      let attribs' := alInsert name value attribs
      let cache' :=
        if sticky then Environment.set_file_attribute cache path file_time name value
        else cache
      ⟨value, true, attribs', cache'⟩

/-! ## Makefile emission (src/mkmk/makefile.py lines 19-73) -/

/-- sorted(set(xs)) on strings: the distinct elements in ascending order. -/
def sortedDedup (xs : List String) : List String :=
  List.insertionSort (· ≤ ·) xs.dedup

/-- MakefileTarget (src/mkmk/makefile.py lines 19-24). -/
structure MakefileTarget where
  output : String
  inputs : List String
  commands : List String
deriving DecidableEq, Repr

/-- The input list MakefileTarget.write emits (the raw_inputs of
src/mkmk/makefile.py line 32): sorted(set(self.inputs)). -/
def MakefileTarget.writtenInputs (t : MakefileTarget) : List String :=
  sortedDedup t.inputs

/-- MakefileTarget.write (src/mkmk/makefile.py lines 31-37) as the emitted
text. -/
def MakefileTarget.write (t : MakefileTarget) : String :=
  shell_escape t.output ++ ": "
    ++ String.intercalate " " (t.writtenInputs.map shell_escape)
    ++ "\n\t" ++ String.intercalate "\n\t" t.commands ++ "\n\n"

/-- Makefile (src/mkmk/makefile.py lines 44-49): the target dict keyed by
output path, the phony set, and the metadata. -/
structure Makefile where
  targets : List (String × MakefileTarget)
  phonies : List String
  metadata : Option AttribCache

/-- Makefile.add_target (src/mkmk/makefile.py lines 53-57). -/
def Makefile.add_target (m : Makefile) (output : String) (inputs : List String)
    (commands : List String) (is_phony : Bool) : Makefile :=
  { m with
    targets := alInsert output ⟨output, inputs, commands⟩ m.targets,
    phonies := if is_phony then output :: m.phonies else m.phonies }

/-- sorted(self.targets.keys()) of Makefile.write
(src/mkmk/makefile.py line 64): the dict keys are distinct, so the
iteration order is the ascending order of the distinct output paths. -/
def Makefile.sortedKeys (m : Makefile) : List String :=
  List.insertionSort (· ≤ ·) (m.targets.map Prod.fst).dedup

/-- The sequence of targets Makefile.write emits, in emission order
(src/mkmk/makefile.py lines 63-66). -/
def Makefile.writeTargets (m : Makefile) : List MakefileTarget :=
  m.sortedKeys.filterMap (fun k => m.targets.lookup k)

/-- Makefile.write (src/mkmk/makefile.py lines 63-73) as the emitted text,
covering the targets, the .PHONY line and the metadata marker. -/
def Makefile.write (m : Makefile) : String :=
  String.join (m.writeTargets.map MakefileTarget.write)
    ++ (if m.phonies.isEmpty then ""
        else ".PHONY: " ++ String.intercalate " "
          (List.insertionSort (· ≤ ·) m.phonies.dedup) ++ "\n\n")
    ++ (match m.metadata with
        | none => ""
        | some _ => "# META: ...\n\n")

/-! ## Gcc toolchain linking (src/mkmk/extension/c.py lines 168-259) -/

/-- The custom flags the C extension parses
(src/mkmk/extension/c.py lines 789-817); only the fields the linker and
run-command paths read are carried. -/
structure Config where
  gprof : Bool
  valgrind : Bool
  valgrind_flag : List String
deriving DecidableEq, Repr

/-- Gcc.get_settings_context None (src/mkmk/extension/c.py lines 172-176):
with is_cpp unset only the toolchain tag is present. -/
def gccLinkContext : Ctx := [("toolchain", "gcc")]

/-- Gcc.get_base_linker_flags (src/mkmk/extension/c.py lines 212-221). The
settings lookup result is immediately overwritten by the literal base
list, but the lookup still runs (and can propagate a failed assert). -/
def Gcc.get_base_linker_flags (config : Config) (settings : Settings) :
    Except String (List String) :=
  match Settings.get settings "linkflags" gccLinkContext [] false with
  | .error e => .error e
  | .ok _ =>
    let result := ["-rdynamic", "-lstdc++"]
    let result := if config.gprof then result ++ ["-pg"] else result
    .ok result

/-- Gcc.get_linker_flags (src/mkmk/extension/c.py lines 225-226). -/
def Gcc.get_linker_flags (config : Config) (settings : Settings)
    (libs : List String) : Except String (List String) :=
  match Gcc.get_base_linker_flags config settings with
  | .error e => .error e
  | .ok base => .ok (base ++ libs.map (fun lib => "-l" ++ lib))

/-- Gcc.get_executable_compile_command
(src/mkmk/extension/c.py lines 251-259). The format string has two spaces
after the output path. -/
def Gcc.get_executable_compile_command (config : Config) (output : String)
    (inputs : List String) (libs : List String) (settings : Settings) :
    Except String Command :=
  match Gcc.get_linker_flags config settings libs with
  | .error e => .error e
  | .ok linkflags =>
    let command := "$(CC) -o " ++ shell_escape output
      ++ "  -Wl,--start-group "
      ++ String.intercalate " " (inputs.map shell_escape)
      ++ " -Wl,--end-group "
      ++ String.intercalate " " linkflags
    .ok { parts := [command],
          comment := some ("Building executable " ++ basename output) }

/-! ## Executable run command (src/mkmk/extension/c.py lines 17, 458-467) -/

/-- _VALGRIND_COMMAND (src/mkmk/extension/c.py line 17). -/
def VALGRIND_COMMAND : String × List String :=
  ("valgrind", ["-q", "--leak-check=full", "--error-exitcode=1"])

/-- ExecutableNode.get_run_command_builder
(src/mkmk/extension/c.py lines 458-467), returning the executable and
argument vector handed to platform.new_command_builder. -/
def ExecutableNode.get_run_command_builder (output_path : String)
    (flags : Config) : String × List String :=
  let executable := output_path
  let args : List String := []
  if flags.valgrind then
    let vexec := VALGRIND_COMMAND.1
    let vargs := VALGRIND_COMMAND.2
    let extra_args := flags.valgrind_flag.map (fun f => "--" ++ f)
    (vexec, vargs ++ extra_args ++ [executable])
  else (executable, args)

/-! ## CopyNode construction (src/mkmk/node.py lines 13-21 and 243-248) -/

/-- A value that can appear where Python expects a node name: the string
the callers supply, or a reference to a node object itself. -/
inductive NameArg : Type where
  | str (s : String)
  | selfRef (id : Nat)
deriving DecidableEq, Repr

/-- The fields Node.__init__ initializes (src/mkmk/node.py lines 16-20):
the stored name and the full name obtained by appending it to the
context's full name. -/
structure NodeBase where
  name : NameArg
  full_name : List NameArg
deriving DecidableEq, Repr

/-- Node.__init__ (src/mkmk/node.py lines 16-20). -/
def Node.init (name : NameArg) (context_full_name : List NameArg) : NodeBase :=
  { name := name, full_name := context_full_name ++ [name] }

/-- CopyNode.__init__ (src/mkmk/node.py lines 245-248): the call
super(CopyNode, self).__init__(self, context) passes the node object
itself, not the name parameter, as the base constructor's name argument.
selfId is the identity of the node under construction. -/
def CopyNode.init (name : String) (context_full_name : List NameArg)
    (selfId : Nat) : NodeBase :=
  let _ := name
  Node.init (NameArg.selfRef selfId) context_full_name

/-! ## Theorems -/

/-- C1 counterexample: the claim says a restriction tag that is missing
from the query context disqualifies the match, so Setting.get must return
the default. On the source, Setting.is_active skips tags absent from the
context: the entry with restriction a=1 matches the empty context and its
value is returned instead of the default. -/
theorem setting_restriction_missing_tag_matches :
    Setting.is_active [("a", "1")] [] = true
  ∧ Setting.get ⟨[(["v"], [("a", "1")])], true, false⟩ [] ["d"]
      = .ok ["v"] := by
  exact ⟨rfl, rfl⟩

/-- C1 amended: an entry is active exactly when every tag of its
restriction that is also bound in the context carries the same value
there; a restriction tag absent from the context never disqualifies. -/
theorem setting_is_active_iff (restriction context : Ctx) :
    Setting.is_active restriction context = true ↔
      ∀ p ∈ restriction, ∀ v, context.lookup p.1 = some v → v = p.2 := by
  unfold Setting.is_active
  rw [List.all_eq_true]
  constructor
  · intro h p hp v hv
    have hm := h p hp
    rw [hv] at hm
    exact eq_of_beq hm
  · intro h tv htv
    cases hl : context.lookup tv.1 with
    | none => simp
    | some v => simpa using h tv htv v hl

/-- C1 amended, instantiated: the characterization applied to the
restriction a=1 and the singleton context binding a to 1. -/
theorem setting_is_active_iff_witness :
    Setting.is_active [("a", "1")] [("a", "1")] = true ↔
      ∀ p ∈ [(("a" : String), ("1" : String))], ∀ v,
        List.lookup p.1 [(("a" : String), ("1" : String))] = some v → v = p.2 :=
  setting_is_active_iff [("a", "1")] [("a", "1")]

/-- C10: CopyNode.__init__ forwards the node object itself, not the
supplied name string, to the Node base constructor, so the stored name of
a copy node created for file path foo.txt is not the string foo.txt. -/
theorem copy_node_name_bug :
    (CopyNode.init "foo.txt" [NameArg.str "root"] 7).name = NameArg.selfRef 7
  ∧ (CopyNode.init "foo.txt" [NameArg.str "root"] 7).name
      ≠ NameArg.str "foo.txt"
  ∧ (CopyNode.init "foo.txt" [NameArg.str "root"] 7).full_name
      = [NameArg.str "root", NameArg.selfRef 7] := by
  exact ⟨rfl, by decide, rfl⟩

/-- C3: neither per-OS System object carries a get_safe_tee_command or a
run_with_environment operation, so CustomExecNode.get_command_line fails
with an AttributeError on every node that tees its output (every
ExecTestCaseNode) and on every node with a non-empty env binding list,
instead of returning a command. -/
theorem custom_exec_missing_system_ops :
    posixSystem.get_safe_tee_command = none
  ∧ posixSystem.run_with_environment = none
  ∧ windowsSystem.get_safe_tee_command = none
  ∧ windowsSystem.run_with_environment = none
  ∧ CustomExecNode.get_command_line posixSystem
      { runner := "out/mytest", outpath := "out/mytest.run", args := [],
        env := [], title := none, full_name := "test::mytest" }
      ExecTestCaseNode.should_tee_output
      = .error "AttributeError: get_safe_tee_command"
  ∧ CustomExecNode.get_command_line posixSystem
      { runner := "out/tool", outpath := "out/tool", args := ["x"],
        env := [⟨"PATH", "/bin", "replace"⟩], title := none,
        full_name := "tool" }
      CustomExecNode.should_tee_output
      = .error "AttributeError: run_with_environment" := by
  exact ⟨rfl, rfl, rfl, rfl, rfl, rfl⟩

/-- C5: a second get_or_create_node call under the same full name returns
exactly the registration produced by the first call — the same node and
an unchanged registry — whatever class and constructor arguments the
second call supplies. -/
theorem get_or_create_node_idempotent (s : NSState) (full : FullName)
    (Cls1 Cls2 : String → List String → NodeBody) (a1 a2 : List String) :
    Nodespace.get_or_create_node
        (Nodespace.get_or_create_node s full Cls1 a1).2 full Cls2 a2
      = Nodespace.get_or_create_node s full Cls1 a1 := by
  cases h : s.nodes.lookup full with
  | some n => simp [Nodespace.get_or_create_node, h]
  | none =>
    simp [Nodespace.get_or_create_node, h, Nodespace.add_node, List.lookup]

/-- C9: with the valgrind flag set the run command builder receives the
valgrind executable with the fixed flags, one double-dashed argument per
user valgrind flag in order, and the executable's output path last; with
the flag unset it receives the executable itself with no arguments. -/
theorem executable_run_command_builder_valgrind (path : String)
    (flags : Config) :
    (flags.valgrind = true →
      ExecutableNode.get_run_command_builder path flags
        = ("valgrind", ["-q", "--leak-check=full", "--error-exitcode=1"]
            ++ flags.valgrind_flag.map (fun f => "--" ++ f) ++ [path]))
  ∧ (flags.valgrind = false →
      ExecutableNode.get_run_command_builder path flags = (path, [])) := by
  constructor <;> intro h <;>
    simp [ExecutableNode.get_run_command_builder, VALGRIND_COMMAND, h]

/-- C9 witness: the spec's own example, with one user flag
track-origins, and the plain case. -/
theorem executable_run_command_builder_valgrind_witness :
    ExecutableNode.get_run_command_builder "out/bin"
        ⟨false, true, ["track-origins"]⟩
      = ("valgrind", ["-q", "--leak-check=full", "--error-exitcode=1",
          "--track-origins", "out/bin"])
  ∧ ExecutableNode.get_run_command_builder "out/bin" ⟨false, false, []⟩
      = ("out/bin", []) :=
  ⟨(executable_run_command_builder_valgrind "out/bin" _).1 rfl,
   (executable_run_command_builder_valgrind "out/bin" _).2 rfl⟩

/-- C2 counterexample: the claim says lines whose hash is preceded by
leading whitespace are collected. The spec's whitespace-tolerant pattern
accepts the indented line and captures a.h, but the source anchors the
pattern at the hash, so the scan drops the indented line while still
collecting the unindented one. -/
theorem scan_ignores_indented_include :
    specIncludeMatch (" #include \"a.h\"").toList = some "a.h"
  ∧ scan_for_include_names [" #include \"a.h\"", "#include \"b.h\""]
      = ["b.h"] := by
  exact ⟨rfl, rfl⟩

/-- C2 amended: the scan collects the captured name of every line that
matches the include pattern anchored directly at a leading hash —
whitespace is allowed after the hash but not before it — and returns the
collected names deduplicated and sorted. -/
theorem scan_for_include_names_spec (lines : List String) :
    List.Sorted (· ≤ ·) (scan_for_include_names lines)
  ∧ (scan_for_include_names lines).Nodup
  ∧ (∀ n, n ∈ scan_for_include_names lines ↔
      ∃ l ∈ lines, matchHeaderAt l.toList = some n)
  ∧ (∀ (c : Char) (cs : List Char), isPySpace c = true →
      matchHeaderAt (c :: cs) = none) := by
  refine ⟨List.sorted_insertionSort _ _,
    (List.perm_insertionSort _ _).nodup_iff.mpr (List.nodup_dedup _),
    ?_, ?_⟩
  · intro n
    simp [scan_for_include_names, List.mem_insertionSort, List.mem_dedup,
      List.mem_filterMap]
  · intro c cs hc
    have hne : ¬(c = '#') := by
      intro h
      rw [h] at hc
      exact absurd hc (by decide)
    simp [matchHeaderAt, hne]

/-- C2 witness: the characterization applied to a concrete line list and
an indented line. -/
theorem scan_for_include_names_spec_witness :
    ("x.h" ∈ scan_for_include_names ["#include \"x.h\""] ↔
      ∃ l ∈ ["#include \"x.h\""], matchHeaderAt l.toList = some "x.h")
  ∧ matchHeaderAt (' ' :: "#include \"y.h\"".toList) = none :=
  ⟨(scan_for_include_names_spec ["#include \"x.h\""]).2.2.1 "x.h",
   (scan_for_include_names_spec []).2.2.2 ' ' ("#include \"y.h\"".toList) rfl⟩

/-- For an additive setting, Setting.get with an empty default returns the
concatenation of the active entries' values in insertion order. -/
theorem Setting.get_additive (s : Setting) (ctx : Ctx)
    (h : s.is_additive = true) :
    Setting.get s ctx []
      = .ok ((Setting.matchValues s ctx).foldl (· ++ ·) []) := by
  unfold Setting.get
  by_cases he : (Setting.matchValues s ctx).isEmpty
  · rw [List.isEmpty_iff] at he
    simp [he]
  · simp [he, h]

/-- C4: a name bound only locally in a parent Settings is invisible to a
child's get — the child delegates upward with only_sticky set, which skips
the non-sticky parent entry and continues with the grandparent — and a
locally bound additive entry resolves to its active values in insertion
order concatenated with the parent's only_sticky resolution. -/
theorem settings_child_resolution (name : String) (ctx : Ctx)
    (d : List String) :
    (∀ (cattribs pattribs : List (String × Setting)) (st : Setting)
        (gp : Option Settings) (ppv cpv : Bool),
      cattribs.lookup name = none →
      pattribs.lookup name = some st →
      st.is_sticky = false →
      Settings.get (.mk cattribs (some (.mk pattribs gp ppv)) cpv)
          name ctx d false
        = (match gp with
           | none => Except.ok d
           | some g => Settings.get g name ctx d true))
  ∧ (∀ (cattribs : List (String × Setting)) (st : Setting) (P : Settings)
        (cpv : Bool) (r : List String),
      cattribs.lookup name = some st →
      st.is_additive = true →
      Settings.get P name ctx d true = .ok r →
      Settings.get (.mk cattribs (some P) cpv) name ctx d false
        = .ok ((Setting.matchValues st ctx).foldl (· ++ ·) [] ++ r)) := by
  constructor
  · intro cattribs pattribs st gp ppv cpv hc hp hs
    cases gp with
    | none => simp [Settings.get, hc, hp, hs]
    | some g => simp [Settings.get, hc, hp, hs]
  · intro cattribs st P cpv r hc ha hr
    simp [Settings.get, hc, ha, hr, Setting.get_additive st ctx ha]

/-- C4 witness: a parent whose flags entry is local-only is skipped from
the child (the default comes back), and a child additive entry
concatenates with the sticky parent resolution. -/
theorem settings_child_resolution_witness :
    Settings.get
        (.mk [] (some (.mk [("flags", ⟨[(["L"], [])], false, false⟩)]
          none false)) false)
        "flags" [] ["D"] false
      = .ok ["D"]
  ∧ Settings.get
        (.mk [("flags", ⟨[(["A"], []), (["B"], [])], true, true⟩)]
          (some (.mk [("flags", ⟨[(["C"], [])], true, true⟩)] none false))
          false)
        "flags" [] ["D"] false
      = .ok ["A", "B", "C"] :=
  ⟨(settings_child_resolution "flags" [] ["D"]).1
      [] [("flags", ⟨[(["L"], [])], false, false⟩)]
      ⟨[(["L"], [])], false, false⟩ none false false rfl rfl rfl,
   (settings_child_resolution "flags" [] ["D"]).2
      [("flags", ⟨[(["A"], []), (["B"], [])], true, true⟩)]
      ⟨[(["A"], []), (["B"], [])], true, true⟩
      (.mk [("flags", ⟨[(["C"], [])], true, true⟩)] none false)
      false ["C"] rfl rfl rfl⟩

/-- C6: when the in-memory attribute dict has no entry and the persisted
cache holds an entry for the path whose stored mtime equals the file's
current modified time, the persisted value is returned and the compute
thunk does not run; when the stored mtime differs, the value is
recomputed and the thunk does run. -/
theorem get_attribute_sticky_cache (path name : String) (file_time : Int)
    (cache : AttribCache) (attribs : List (String × MetaVal))
    (e : CacheEntry) (v thunkResult : MetaVal)
    (hmem : attribs.lookup name = none)
    (hentry : cache.lookup path = some e) :
    ((e.lookup "mtime").getD (MetaVal.int 0) = MetaVal.int file_time →
      e.lookup name = some v →
      AbstractFile.get_attribute attribs cache path file_time name
          thunkResult true
        = ⟨v, false, alInsert name v attribs, cache⟩)
  ∧ ((e.lookup "mtime").getD (MetaVal.int 0) ≠ MetaVal.int file_time →
      (AbstractFile.get_attribute attribs cache path file_time name
          thunkResult true).value = thunkResult
    ∧ (AbstractFile.get_attribute attribs cache path file_time name
          thunkResult true).computed = true) := by
  constructor
  · intro hmt hv
    simp [AbstractFile.get_attribute, hmem,
      Environment.peek_file_attribute, hentry, hmt, hv]
  · intro hmt
    simp [AbstractFile.get_attribute, hmem,
      Environment.peek_file_attribute, hentry, hmt]

/-- C6 witness: a cache entry for a.c stored at mtime 5000 with an
include_names value is served without computing when the file's mtime is
still 5000, and is recomputed when the mtime moved to 6000. -/
theorem get_attribute_sticky_cache_witness :
    AbstractFile.get_attribute []
        [("a.c", [("mtime", MetaVal.int 5000),
          ("include_names", MetaVal.strs ["x.h"])])]
        "a.c" 5000 "include_names" (MetaVal.strs ["fresh.h"]) true
      = ⟨MetaVal.strs ["x.h"], false,
          alInsert "include_names" (MetaVal.strs ["x.h"]) [],
          [("a.c", [("mtime", MetaVal.int 5000),
            ("include_names", MetaVal.strs ["x.h"])])]⟩
  ∧ (AbstractFile.get_attribute []
        [("a.c", [("mtime", MetaVal.int 5000),
          ("include_names", MetaVal.strs ["x.h"])])]
        "a.c" 6000 "include_names" (MetaVal.strs ["fresh.h"]) true).value
      = MetaVal.strs ["fresh.h"]
  ∧ (AbstractFile.get_attribute []
        [("a.c", [("mtime", MetaVal.int 5000),
          ("include_names", MetaVal.strs ["x.h"])])]
        "a.c" 6000 "include_names" (MetaVal.strs ["fresh.h"]) true).computed
      = true :=
  ⟨(get_attribute_sticky_cache "a.c" "include_names" 5000
      [("a.c", [("mtime", MetaVal.int 5000),
        ("include_names", MetaVal.strs ["x.h"])])] []
      [("mtime", MetaVal.int 5000), ("include_names", MetaVal.strs ["x.h"])]
      (MetaVal.strs ["x.h"]) (MetaVal.strs ["fresh.h"]) rfl rfl).1 rfl rfl,
   ((get_attribute_sticky_cache "a.c" "include_names" 6000
      [("a.c", [("mtime", MetaVal.int 5000),
        ("include_names", MetaVal.strs ["x.h"])])] []
      [("mtime", MetaVal.int 5000), ("include_names", MetaVal.strs ["x.h"])]
      (MetaVal.strs ["x.h"]) (MetaVal.strs ["fresh.h"]) rfl rfl).2
      (by decide)).1,
   ((get_attribute_sticky_cache "a.c" "include_names" 6000
      [("a.c", [("mtime", MetaVal.int 5000),
        ("include_names", MetaVal.strs ["x.h"])])] []
      [("mtime", MetaVal.int 5000), ("include_names", MetaVal.strs ["x.h"])]
      (MetaVal.strs ["x.h"]) (MetaVal.strs ["fresh.h"]) rfl rfl).2
      (by decide)).2⟩

/-- Every sortedDedup list is weakly sorted. -/
theorem sortedDedup_sorted (xs : List String) :
    List.Sorted (· ≤ ·) (sortedDedup xs) :=
  List.sorted_insertionSort _ _

/-- Every sortedDedup list has no duplicates. -/
theorem sortedDedup_nodup (xs : List String) : (sortedDedup xs).Nodup :=
  (List.perm_insertionSort _ _).nodup_iff.mpr (List.nodup_dedup _)

/-- A successful association-list lookup exhibits a member pair. -/
theorem lookup_mem {α : Type} :
    ∀ (l : List (String × α)) (k : String) (v : α),
      l.lookup k = some v → (k, v) ∈ l := by
  intro l k v
  induction l with
  | nil => intro h; simp [List.lookup] at h
  | cons p t ih =>
    obtain ⟨a, b⟩ := p
    intro h
    rw [List.lookup] at h
    cases hk : (k == a) with
    | true =>
      rw [hk] at h
      have hke : k = a := eq_of_beq hk
      have hb : b = v := by simpa using h
      rw [hke, hb]
      exact List.mem_cons_self _ _
    | false =>
      rw [hk] at h
      exact List.mem_cons_of_mem _ (ih h)

/-- The output fields of the targets Makefile.write looks up are a
sublist of the key list it iterates, provided each registered target is
keyed by its own output path. -/
theorem writeTargets_outputs_sublist (ts : List (String × MakefileTarget))
    (h : ∀ p ∈ ts, (p.2).output = p.1) :
    ∀ ks : List String,
      ((ks.filterMap (fun k => ts.lookup k)).map
        MakefileTarget.output).Sublist ks := by
  intro ks
  induction ks with
  | nil => simp
  | cons k t ih =>
    cases hl : ts.lookup k with
    | none =>
      simp only [List.filterMap_cons, hl]
      exact ih.cons k
    | some tgt =>
      have hout : tgt.output = k := h (k, tgt) (lookup_mem ts k tgt hl)
      simp only [List.filterMap_cons, hl, List.map_cons, hout]
      exact ih.cons₂ k

/-- C7: every Makefile whose registered targets are keyed by their own
output path emits each target's input list sorted and duplicate-free,
and emits the targets in strictly ascending order of their output-path
strings. -/
theorem makefile_write_sorted_dedup (m : Makefile)
    (hwf : ∀ p ∈ m.targets, (p.2).output = p.1) :
    (∀ t ∈ m.writeTargets,
      List.Sorted (· ≤ ·) t.writtenInputs ∧ t.writtenInputs.Nodup)
  ∧ List.Sorted (· < ·) (m.writeTargets.map MakefileTarget.output) := by
  constructor
  · intro t _
    exact ⟨sortedDedup_sorted t.inputs, sortedDedup_nodup t.inputs⟩
  · have hks_sorted : List.Sorted (· ≤ ·) m.sortedKeys :=
      List.sorted_insertionSort _ _
    have hks_nodup : m.sortedKeys.Nodup :=
      (List.perm_insertionSort _ _).nodup_iff.mpr (List.nodup_dedup _)
    have hks_lt : List.Sorted (· < ·) m.sortedKeys :=
      hks_sorted.lt_of_le hks_nodup
    exact List.Pairwise.sublist
      (writeTargets_outputs_sublist m.targets hwf m.sortedKeys) hks_lt

/-- C7 witness: a makefile with two targets added out of order, one with
duplicated unsorted inputs. -/
theorem makefile_write_sorted_dedup_witness :
    (∀ p ∈ (((Makefile.mk [] [] none).add_target "b" ["y", "x", "y"]
        ["c1"] false).add_target "a" ["z"] [] true).targets,
      (p.2).output = p.1)
  ∧ ((∀ t ∈ (((Makefile.mk [] [] none).add_target "b" ["y", "x", "y"]
        ["c1"] false).add_target "a" ["z"] [] true).writeTargets,
      List.Sorted (· ≤ ·) t.writtenInputs ∧ t.writtenInputs.Nodup)
    ∧ List.Sorted (· < ·)
        ((((Makefile.mk [] [] none).add_target "b" ["y", "x", "y"]
          ["c1"] false).add_target "a" ["z"] [] true).writeTargets.map
          MakefileTarget.output)) :=
  ⟨by decide, makefile_write_sorted_dedup _ (by decide)⟩

/-- C8: whenever the dead linkflags settings read succeeds, the GCC
executable link flags are exactly the base pair -rdynamic -lstdc++,
then -pg when profiling, then one -l flag per requested library in
order, and the link command wraps the escaped input paths between
-Wl,--start-group and -Wl,--end-group ahead of those flags. -/
theorem gcc_executable_link_flags (config : Config) (settings : Settings)
    (libs : List String) (v : List String)
    (h : Settings.get settings "linkflags" gccLinkContext [] false = .ok v) :
    Gcc.get_linker_flags config settings libs
      = .ok (["-rdynamic", "-lstdc++"]
          ++ (if config.gprof then ["-pg"] else [])
          ++ libs.map (fun lib => "-l" ++ lib))
  ∧ ∀ (output : String) (inputs : List String),
      Gcc.get_executable_compile_command config output inputs libs settings
        = .ok { parts := ["$(CC) -o " ++ shell_escape output
                  ++ "  -Wl,--start-group "
                  ++ String.intercalate " " (inputs.map shell_escape)
                  ++ " -Wl,--end-group "
                  ++ String.intercalate " "
                      (["-rdynamic", "-lstdc++"]
                        ++ (if config.gprof then ["-pg"] else [])
                        ++ libs.map (fun lib => "-l" ++ lib))],
                comment := some ("Building executable " ++ basename output) }
    := by
  have hl : Gcc.get_linker_flags config settings libs
      = .ok (["-rdynamic", "-lstdc++"]
          ++ (if config.gprof then ["-pg"] else [])
          ++ libs.map (fun lib => "-l" ++ lib)) := by
    cases hg : config.gprof <;>
      simp [Gcc.get_linker_flags, Gcc.get_base_linker_flags, h, hg]
  refine ⟨hl, ?_⟩
  intro output inputs
  simp [Gcc.get_executable_compile_command, hl]

/-- C8 witness: profiling build linking two libraries against an empty
settings chain. -/
theorem gcc_executable_link_flags_witness :
    Gcc.get_linker_flags ⟨true, false, []⟩ (.mk [] none false)
        ["m", "pthread"]
      = .ok ["-rdynamic", "-lstdc++", "-pg", "-lm", "-lpthread"]
  ∧ Gcc.get_executable_compile_command ⟨true, false, []⟩ "out/bin"
        ["out/a.c.o", "out/b.cc.o"] ["m", "pthread"] (.mk [] none false)
      = .ok { parts := ["$(CC) -o out/bin  -Wl,--start-group "
                ++ "out/a.c.o out/b.cc.o -Wl,--end-group "
                ++ "-rdynamic -lstdc++ -pg -lm -lpthread"],
              comment := some "Building executable bin" } := by
  constructor
  · exact (gcc_executable_link_flags ⟨true, false, []⟩ (.mk [] none false)
      ["m", "pthread"] [] rfl).1
  · rw [(gcc_executable_link_flags ⟨true, false, []⟩ (.mk [] none false)
      ["m", "pthread"] [] rfl).2 "out/bin" ["out/a.c.o", "out/b.cc.o"]]
    simp only [Except.ok.injEq]
    decide

end Mkmk
